import Mathlib

/-!
Verification of the generic CRUD controller factory in `Controller.js`
(`src/unnamed/part_000`).  The file embeds the controller's handlers as
pure Lean functions: the Mongoose collection becomes a `List Doc`
threaded through each handler, an HTTP response becomes a `Resp` value,
and the `async`/promise layer becomes the `Except` monad (a handler
either produces a value or throws).  Numbers are exact (`Nat`, `Int`,
`ℚ`): `Math.ceil(total / limit)` is embedded as the exact rational
ceiling, the IEEE-754 rounding of JavaScript numbers being out of scope
for the integer ranges these claims quantify over.
-/

namespace G26

/-- A stored record of the bound model: an identifier, the boolean
`active` flag used by `toggleFlag` (absent/undefined is modelled as
`none`, since a Mongoose document need not carry the field), and a
representative payload field `name` (also optional). -/
structure Doc where
  id : Nat
  active : Option Bool
  name : Option String
deriving DecidableEq

/-- A request body for `create`/`update`: each recognized field is
either supplied (`some`) or absent (`none`). -/
structure Payload where
  name : Option String
  active : Option Bool
deriving DecidableEq

/-- Pagination metadata, line 50 of the source:
`meta: { page, limit, total, pages: Math.ceil(total / limit) }`. -/
structure Meta where
  page : Int
  limit : Int
  total : Nat
  pages : Int
deriving DecidableEq

/-- The JSON bodies the controller sends:
`{errors:[...]}`, `{success, data}`, `{success, message}`, and the
list body `{success, meta, data:[...]}`. -/
inductive JBody where
  | errs : List String → JBody
  | data : Bool → Doc → JBody
  | msg : Bool → String → JBody
  | listing : Bool → Meta → List Doc → JBody
deriving DecidableEq

/-- An HTTP response: `res.status(s).json(body)`. -/
structure Resp where
  status : Nat
  body : JBody
deriving DecidableEq

/-- The `404 {success:false, message:'Not found'}` response shared by
`getById`, `update`, `remove` and `toggleFlag`. -/
def notFound : Resp := ⟨404, .msg false "Not found"⟩

/-- Lookup by identifier: `Model.findById(id)` on the collection. -/
def findDoc (s : List Doc) (i : Nat) : Option Doc :=
  s.find? (fun d => d.id == i)

/-- Persisting a loaded document (`doc.save()` on an existing document):
the stored record with the same identifier is replaced. -/
def saveDoc (s : List Doc) (d : Doc) : List Doc :=
  s.map (fun x => if x.id == d.id then d else x)

/-- Constructing `new Model(payload)` with a fresh identifier: the
document carries exactly the recognized fields of the payload. -/
def newDoc (freshId : Nat) (p : Payload) : Doc :=
  ⟨freshId, p.active, p.name⟩

/-- Embedding of `create` (source lines 20-29).  `vErrs` is the result
of `validationResult(req)` computed by the express-validator middleware
configured on the route: if it is non-empty the handler answers
`400 {errors:[...]}` without touching the collection, otherwise it
saves `new Model(payload)` and answers `201 {success:true, data:doc}`. -/
def create (freshId : Nat) (vErrs : List String) (p : Payload) (s : List Doc) :
    Resp × List Doc :=
  if !vErrs.isEmpty then (⟨400, .errs vErrs⟩, s)
  else (⟨201, .data true (newDoc freshId p)⟩, s ++ [newDoc freshId p])

/-- Embedding of source line 33,
`const page = Math.max(1, parseInt(req.query.page || '1', 10))`,
for a request whose `page` query parameter is absent (`none`) or an
integer numeral (`some p`). -/
def effectivePage (page : Option Int) : Int := max 1 (page.getD 1)

/-- Embedding of source line 34,
`const limit = Math.min(100, parseInt(req.query.limit || '25', 10))`,
for a request whose `limit` query parameter is absent (`none`) or an
integer numeral (`some l`).  Note the source only caps the value above
at 100; there is no lower clamp. -/
def effectiveLimit (limit : Option Int) : Int := min 100 (limit.getD 25)

/-- Embedding of `pages: Math.ceil(total / limit)` (source line 50) as
the exact rational ceiling. -/
def pagesCeil (total : Nat) (limit : Int) : Int := ⌈(total : ℚ) / (limit : ℚ)⌉

/-- The pagination metadata assembled by `getAll` (source lines 33-34
and 50) from the request's query parameters and the count returned by
`Model.countDocuments`. -/
def getAllMeta (page limit : Option Int) (total : Nat) : Meta :=
  { page := effectivePage page
    limit := effectiveLimit limit
    total := total
    pages := pagesCeil total (effectiveLimit limit) }

/-- Embedding of `getById` (source lines 57-62). -/
def getById (s : List Doc) (i : Nat) : Resp :=
  match findDoc s i with
  | none => notFound
  | some d => ⟨200, .data true d⟩

/-- Partial update, mirroring the `$set` semantics of
`findByIdAndUpdate(id, payload, ...)`: each field supplied by the
payload overwrites the stored field, absent fields are kept. -/
def applyPayload (p : Payload) (d : Doc) : Doc :=
  { d with
    name := match p.name with | none => d.name | some n => some n
    active := match p.active with | none => d.active | some b => some b }

/-- Embedding of `update` (source lines 65-71):
`Model.findByIdAndUpdate(id, payload, { new: true, runValidators: true })`,
answering `404 {success:false, message:'Not found'}` when the identifier
resolves to no document and `200 {success:true, data}` with the
post-update document otherwise. -/
def update (s : List Doc) (i : Nat) (p : Payload) : Resp × List Doc :=
  match findDoc s i with
  | none => (notFound, s)
  | some d => (⟨200, .data true (applyPayload p d)⟩, saveDoc s (applyPayload p d))

/-- Embedding of `remove` (source lines 74-79):
`Model.findByIdAndDelete(id)`, answering 404 when the identifier
resolves to no document and `200 {success:true, message:'Deleted'}`
otherwise. -/
def remove (s : List Doc) (i : Nat) : Resp × List Doc :=
  match findDoc s i with
  | none => (notFound, s)
  | some _ => (⟨200, .msg true "Deleted"⟩, s.eraseP (fun d => d.id == i))

/-- JavaScript negation `!doc.active` on a field that may be absent:
`!undefined` is `true`, `!false` is `true`, `!true` is `false`. -/
def negUndef (a : Option Bool) : Bool :=
  match a with
  | some b => !b
  | none => true

/-- Embedding of `toggleFlag` (source lines 82-89): load the document,
set `doc.active = !doc.active`, save it, and answer
`200 {success:true, data:doc}`; 404 when the identifier resolves to no
document. -/
def toggleFlag (s : List Doc) (i : Nat) : Resp × List Doc :=
  match findDoc s i with
  | none => (notFound, s)
  | some d =>
    (⟨200, .data true { d with active := some (negUndef d.active) }⟩,
      saveDoc s { d with active := some (negUndef d.active) })

/-- Outcome of one handler invocation under `asyncHandler`: either the
handler ran to completion and produced its value (a sent response), or
`next` was called with an error and no response was sent by the
handler. -/
inductive Outcome (ε α : Type) where
  | completed : α → Outcome ε α
  | nextCalled : ε → Outcome ε α
deriving DecidableEq

/-- Embedding of `asyncHandler` (source lines 9-11):
`Promise.resolve(fn(req, res, next)).catch(next)`.  The wrapped handler
is a computation that either returns a value or throws; a throw is
routed to `next`. -/
def asyncHandler {ρ ε α : Type} (fn : ρ → Except ε α) (req : ρ) : Outcome ε α :=
  match fn req with
  | .ok a => .completed a
  | .error e => .nextCalled e

/-! Helper lemmas about `findDoc`, `saveDoc` and `List.eraseP`. -/

/-- A document returned by `findDoc s i` carries the identifier `i`. -/
theorem findDoc_id_eq (s : List Doc) (i : Nat) (d : Doc)
    (h : findDoc s i = some d) : d.id = i := by
  unfold findDoc at h
  simpa using List.find?_some h

/-- Head computation of `findDoc` when the first document matches. -/
theorem findDoc_cons_self (a : Doc) (t : List Doc) (i : Nat) (ha : a.id = i) :
    findDoc (a :: t) i = some a := by
  unfold findDoc
  exact List.find?_cons_of_pos _ (by simpa using ha)

/-- Head computation of `findDoc` when the first document does not match. -/
theorem findDoc_cons_of_ne (a : Doc) (t : List Doc) (i : Nat) (ha : ¬ a.id = i) :
    findDoc (a :: t) i = findDoc t i := by
  unfold findDoc
  exact List.find?_cons_of_neg _ (by simpa using ha)

/-- Head computation of the deletion scan when the first document matches. -/
theorem erasePDoc_cons_of_eq (a : Doc) (t : List Doc) (i : Nat) (ha : a.id = i) :
    List.eraseP (fun d : Doc => d.id == i) (a :: t) = t :=
  List.eraseP_cons_of_pos (by simpa using ha)

/-- Head computation of the deletion scan when the first document does not match. -/
theorem erasePDoc_cons_of_ne (a : Doc) (t : List Doc) (i : Nat) (ha : ¬ a.id = i) :
    List.eraseP (fun d : Doc => d.id == i) (a :: t)
      = a :: List.eraseP (fun d : Doc => d.id == i) t :=
  List.eraseP_cons_of_neg (by simpa using ha)

/-- Saving a document whose identifier is `i` makes it the document
that `findDoc _ i` returns, provided some document with identifier `i`
was already stored (so that `saveDoc`'s replacement fires). -/
theorem findDoc_saveDoc (s : List Doc) (i : Nat) (e : Doc) (he : e.id = i) :
    ∀ d : Doc, findDoc s i = some d → findDoc (saveDoc s e) i = some e := by
  induction s with
  | nil => intro d hf; simp [findDoc] at hf
  | cons a t ih =>
    intro d hf
    by_cases ha : a.id = i
    · have hsave : saveDoc (a :: t) e = e :: saveDoc t e := by
        simp [saveDoc, he, ha]
      rw [hsave]
      exact findDoc_cons_self e (saveDoc t e) i he
    · have h1 : (a.id == e.id) = false := by
        rw [he]
        exact beq_eq_false_iff_ne.mpr ha
      have hhead : ((if a.id == e.id then e else a) : Doc) = a :=
        if_neg (by simp [h1])
      have hsave : saveDoc (a :: t) e = a :: saveDoc t e := by
        show (if a.id == e.id then e else a) :: saveDoc t e = a :: saveDoc t e
        rw [hhead]
      have hfa : findDoc t i = some d := by
        rwa [findDoc_cons_of_ne a t i ha] at hf
      rw [hsave, findDoc_cons_of_ne a (saveDoc t e) i ha]
      exact ih d hfa

/-- Erasing the first document with identifier `i` from a collection
whose identifiers are pairwise distinct leaves no document with
identifier `i`. -/
theorem findDoc_eraseP_self (s : List Doc) (i : Nat)
    (h : (s.map Doc.id).Nodup) :
    findDoc (s.eraseP (fun d => d.id == i)) i = none := by
  induction s with
  | nil => rfl
  | cons a t ih =>
    rw [List.map_cons, List.nodup_cons] at h
    by_cases ha : a.id = i
    · rw [erasePDoc_cons_of_eq a t i ha]
      unfold findDoc
      apply List.find?_eq_none.2
      intro x hx
      simp only [beq_iff_eq]
      intro hxi
      exact h.1 (by rw [ha, ← hxi]; exact List.mem_map_of_mem Doc.id hx)
    · rw [erasePDoc_cons_of_ne a t i ha, findDoc_cons_of_ne a _ i ha]
      exact ih h.2

/-- Projection of the metadata record: the `page` field. -/
theorem getAllMeta_page (p q : Option Int) (total : Nat) :
    (getAllMeta p q total).page = effectivePage p := rfl

/-- Projection of the metadata record: the `limit` field. -/
theorem getAllMeta_limit (p q : Option Int) (total : Nat) :
    (getAllMeta p q total).limit = effectiveLimit q := rfl

/-- Projection of the metadata record: the `pages` field. -/
theorem getAllMeta_pages (p q : Option Int) (total : Nat) :
    (getAllMeta p q total).pages = pagesCeil total (effectiveLimit q) := rfl

/-! Claim theorems. -/

/-- Claim C1, counterexample: the claim says every supplied limit below
1 is raised to 1, so the effective limit always lies in [1,100].  The
source computes `Math.min(100, limit)` with no lower clamp: a request
with `limit=0` yields an effective limit of 0, outside [1,100]. -/
theorem C1_counterexample :
    (getAllMeta (some 1) (some 0) 0).limit = 0 ∧
      ¬ (1 ≤ (getAllMeta (some 1) (some 0) 0).limit) := by
  decide

/-- Claim C1, amended: the list operation only clamps the limit from
above: the effective limit is at most 100, any supplied limit above 100
is lowered to 100, and any supplied limit at most 100 (including 0 and
negative values) is used unchanged — it is not raised to 1. -/
theorem C1_limit_clamped_above_only :
    ∀ (p : Option Int) (l : Int) (total : Nat),
      (getAllMeta p (some l) total).limit ≤ 100 ∧
        (100 < l → (getAllMeta p (some l) total).limit = 100) ∧
        (l ≤ 100 → (getAllMeta p (some l) total).limit = l) := by
  intro p l total
  simp only [getAllMeta_limit, effectiveLimit, Option.getD_some]
  exact ⟨min_le_left _ _, fun h => min_eq_left h.le, fun h => min_eq_right h⟩

/-- Witness for the amended claim C1 at supplied limits 250 and 40. -/
theorem C1_limit_clamped_above_only_witness :
    (getAllMeta (some 1) (some 250) 0).limit = 100 ∧
      (getAllMeta (some 1) (some 40) 0).limit = 40 :=
  ⟨(C1_limit_clamped_above_only (some 1) 250 0).2.1 (by decide),
   (C1_limit_clamped_above_only (some 1) 40 0).2.2 (by decide)⟩

/-- Claim C2: for an integer page parameter below 1 the effective page
is 1 (`Math.max(1, page)`), and for an integer limit parameter above
100 the effective limit is 100 (`Math.min(100, limit)`). -/
theorem C2_page_raised_limit_capped :
    ∀ (p l : Int) (total : Nat),
      (p < 1 → (getAllMeta (some p) (some l) total).page = 1) ∧
        (100 < l → (getAllMeta (some p) (some l) total).limit = 100) := by
  intro p l total
  simp only [getAllMeta_page, getAllMeta_limit, effectivePage, effectiveLimit,
    Option.getD_some]
  exact ⟨fun h => max_eq_left h.le, fun h => min_eq_left h.le⟩

/-- Witness for claim C2 at page -5 and limit 250. -/
theorem C2_page_raised_limit_capped_witness :
    (getAllMeta (some (-5)) (some 250) 0).page = 1 ∧
      (getAllMeta (some (-5)) (some 250) 0).limit = 100 :=
  ⟨(C2_page_raised_limit_capped (-5) 250 0).1 (by decide),
   (C2_page_raised_limit_capped (-5) 250 0).2 (by decide)⟩

/-- Claim C9: a request that supplies no page parameter gets effective
page 1 (`parseInt(req.query.page || '1', 10)`), and a request that
supplies no limit parameter gets effective limit 25
(`parseInt(req.query.limit || '25', 10)`). -/
theorem C9_default_page_and_limit :
    ∀ total : Nat,
      (getAllMeta none none total).page = 1 ∧
        (getAllMeta none none total).limit = 25 := by
  intro total
  refine ⟨?_, ?_⟩
  · rw [getAllMeta_page]
    decide
  · rw [getAllMeta_limit]
    decide

/-- Claim C4: when the identifier resolves to no stored record, each of
`update`, `remove` and `toggleFlag` answers
`404 {success:false, message:'Not found'}` and leaves the collection
unchanged. -/
theorem C4_not_found_leaves_store :
    ∀ (s : List Doc) (i : Nat) (p : Payload), findDoc s i = none →
      update s i p = (notFound, s) ∧ remove s i = (notFound, s) ∧
        toggleFlag s i = (notFound, s) := by
  intro s i p h
  refine ⟨?_, ?_, ?_⟩ <;> simp [update, remove, toggleFlag, h]

/-- Witness for claim C4 on the empty collection. -/
theorem C4_not_found_leaves_store_witness :
    update [] 0 ⟨none, none⟩ = (notFound, []) ∧ remove [] 0 = (notFound, []) ∧
      toggleFlag [] 0 = (notFound, []) :=
  C4_not_found_leaves_store [] 0 ⟨none, none⟩ rfl

/-- Claim C5: `create` checks the validation result; when it is
non-empty the handler answers `400 {errors:[...]}` and persists
nothing, otherwise it appends the new record and answers
`201 {success:true, data}` with the stored representation. -/
theorem C5_create_validates :
    ∀ (fid : Nat) (vErrs : List String) (p : Payload) (s : List Doc),
      (vErrs ≠ [] → create fid vErrs p s = (⟨400, .errs vErrs⟩, s)) ∧
        (vErrs = [] →
          create fid vErrs p s =
            (⟨201, .data true (newDoc fid p)⟩, s ++ [newDoc fid p])) := by
  intro fid vErrs p s
  constructor
  · intro hne
    cases vErrs with
    | nil => exact absurd rfl hne
    | cons a l => simp [create]
  · intro he
    subst he
    simp [create]

/-- Witness for claim C5: one failing validation, one passing one. -/
theorem C5_create_validates_witness :
    create 7 ["name required"] ⟨none, none⟩ [] =
        (⟨400, .errs ["name required"]⟩, []) ∧
      create 7 [] ⟨some "A", none⟩ [] =
        (⟨201, .data true (newDoc 7 ⟨some "A", none⟩)⟩,
          [] ++ [newDoc 7 ⟨some "A", none⟩]) :=
  ⟨(C5_create_validates 7 ["name required"] ⟨none, none⟩ []).1 (by simp),
   (C5_create_validates 7 [] ⟨some "A", none⟩ []).2 rfl⟩

/-- Claim C6: when the wrapped handler throws, `asyncHandler` routes
the error to `next` and the handler completes no response of its own. -/
theorem C6_asyncHandler_propagates :
    ∀ (ρ ε α : Type) (fn : ρ → Except ε α) (req : ρ) (e : ε),
      fn req = Except.error e →
      asyncHandler fn req = Outcome.nextCalled e ∧
        ∀ a : α, asyncHandler fn req ≠ Outcome.completed a := by
  intro ρ ε α fn req e h
  unfold asyncHandler
  rw [h]
  exact ⟨rfl, fun a hc => Outcome.noConfusion hc⟩

/-- Witness for claim C6 on a handler that always throws. -/
theorem C6_asyncHandler_propagates_witness :
    asyncHandler (fun _ : Nat => (Except.error "db down" : Except String Nat)) 0 =
      Outcome.nextCalled "db down" :=
  (C6_asyncHandler_propagates Nat String Nat
    (fun _ => Except.error "db down") 0 "db down" rfl).1

/-- Exact rational ceiling of `total / lim` agrees with the integer
ceiling division `(total + lim - 1) / lim` for every positive `lim`. -/
theorem pagesCeil_eq_ceilDiv (total lim : Nat) (h : 0 < lim) :
    pagesCeil total (lim : Int) = (((total + lim - 1) / lim : Nat) : Int) := by
  have hq : (0 : ℚ) < (lim : ℚ) := by exact_mod_cast h
  have e0 : lim * ((total + lim - 1) / lim) + (total + lim - 1) % lim
      = total + lim - 1 := Nat.div_add_mod _ _
  have hr : (total + lim - 1) % lim < lim := Nat.mod_lt _ h
  set q : Nat := (total + lim - 1) / lim with hqdef
  have h1 : total ≤ q * lim := by
    rw [Nat.mul_comm]
    omega
  have h2 : q * lim < total + lim := by
    rw [Nat.mul_comm]
    omega
  unfold pagesCeil
  rw [Int.ceil_eq_iff]
  refine ⟨?_, ?_⟩
  · push_cast
    rw [lt_div_iff₀ hq]
    have h2' : (q : ℚ) * lim < total + lim := by exact_mod_cast h2
    nlinarith [h2']
  · push_cast
    rw [div_le_iff₀ hq]
    have h1' : (total : ℚ) ≤ (q : ℚ) * lim := by exact_mod_cast h1
    linarith

/-- Claim C3: whenever the effective limit of a list request is a
positive integer `lim`, the `pages` field of the pagination metadata
equals the ceiling of `total / lim`, here written as the integer
ceiling division `(total + lim - 1) / lim`. -/
theorem C3_pages_is_ceil_div :
    ∀ (p q : Option Int) (total lim : Nat),
      0 < lim → effectiveLimit q = (lim : Int) →
      (getAllMeta p q total).pages = (((total + lim - 1) / lim : Nat) : Int) := by
  intro p q total lim h hq
  rw [getAllMeta_pages, hq]
  exact pagesCeil_eq_ceilDiv total lim h

/-- Witness for claim C3: total 10, limit 3 gives 4 pages. -/
theorem C3_pages_is_ceil_div_witness :
    (getAllMeta none (some 3) 10).pages = 4 := by
  have h := C3_pages_is_ceil_div none (some 3) 10 3 (by decide) (by decide)
  norm_num at h
  exact h

/-- Claim C7: deleting a stored record by its identifier and then
fetching the same identifier yields the not-found response, provided
the stored identifiers are pairwise distinct (the identifier-uniqueness
invariant of the data model). -/
theorem C7_remove_then_getById_not_found :
    ∀ (s : List Doc) (i : Nat) (d : Doc), (s.map Doc.id).Nodup →
      findDoc s i = some d → getById (remove s i).2 i = notFound := by
  intro s i d hnd hf
  have h2 : (remove s i).2 = s.eraseP (fun d => d.id == i) := by
    simp [remove, hf]
  rw [h2]
  unfold getById
  rw [findDoc_eraseP_self s i hnd]

/-- Witness for claim C7 on a one-record collection. -/
theorem C7_remove_then_getById_not_found_witness :
    getById (remove [⟨1, some true, none⟩] 1).2 1 = notFound :=
  C7_remove_then_getById_not_found [⟨1, some true, none⟩] 1
    ⟨1, some true, none⟩ (by decide) (by decide)

/-- Claim C8: for a stored record whose `active` flag is the boolean
`b`, toggling twice returns the record with its original `active`
value: the second toggle's response carries the original record, and
the collection again stores it. -/
theorem C8_toggle_involution :
    ∀ (s : List Doc) (i : Nat) (d : Doc) (b : Bool),
      findDoc s i = some d → d.active = some b →
      (toggleFlag (toggleFlag s i).2 i).1 = ⟨200, .data true d⟩ ∧
        findDoc (toggleFlag (toggleFlag s i).2 i).2 i = some d := by
  intro s i d b hf hb
  have hid : d.id = i := findDoc_id_eq s i d hf
  obtain ⟨did, dact, dnm⟩ := d
  have hid' : did = i := hid
  have hb' : dact = some b := hb
  subst hid'
  subst hb'
  have ht1 : toggleFlag s did =
      (⟨200, .data true ⟨did, some (!b), dnm⟩⟩, saveDoc s ⟨did, some (!b), dnm⟩) := by
    simp [toggleFlag, hf, negUndef]
  have hf1 : findDoc (saveDoc s ⟨did, some (!b), dnm⟩) did
      = some ⟨did, some (!b), dnm⟩ :=
    findDoc_saveDoc s did ⟨did, some (!b), dnm⟩ rfl ⟨did, some b, dnm⟩ hf
  refine ⟨?_, ?_⟩
  · rw [ht1]
    simp [toggleFlag, hf1, negUndef]
  · rw [ht1]
    have hf2 : findDoc
        (saveDoc (saveDoc s ⟨did, some (!b), dnm⟩) ⟨did, some b, dnm⟩) did
        = some ⟨did, some b, dnm⟩ :=
      findDoc_saveDoc _ did ⟨did, some b, dnm⟩ rfl ⟨did, some (!b), dnm⟩ hf1
    simp [toggleFlag, hf1, negUndef, hf2]

/-- Witness for claim C8 on a one-record collection with `active=true`. -/
theorem C8_toggle_involution_witness :
    (toggleFlag (toggleFlag [⟨1, some true, none⟩] 1).2 1).1 =
      ⟨200, .data true ⟨1, some true, none⟩⟩ :=
  (C8_toggle_involution [⟨1, some true, none⟩] 1 ⟨1, some true, none⟩ true
    rfl rfl).1

/-- Claim C10: toggling a stored record whose `active` field is absent
sets it to `true` (JavaScript `!undefined` is `true`): the response
carries the record with `active=true` and the collection stores it. -/
theorem C10_toggle_missing_flag_true :
    ∀ (s : List Doc) (i : Nat) (d : Doc),
      findDoc s i = some d → d.active = none →
      (toggleFlag s i).1 = ⟨200, .data true { d with active := some true }⟩ ∧
        findDoc (toggleFlag s i).2 i = some { d with active := some true } := by
  intro s i d hf hn
  have hid : d.id = i := findDoc_id_eq s i d hf
  obtain ⟨did, dact, dnm⟩ := d
  have hid' : did = i := hid
  have hn' : dact = none := hn
  subst hid'
  subst hn'
  have hf1 : findDoc (saveDoc s ⟨did, some true, dnm⟩) did
      = some ⟨did, some true, dnm⟩ :=
    findDoc_saveDoc s did ⟨did, some true, dnm⟩ rfl ⟨did, none, dnm⟩ hf
  refine ⟨?_, ?_⟩ <;> simp [toggleFlag, hf, negUndef, hf1]

/-- Witness for claim C10 on a record lacking the `active` field. -/
theorem C10_toggle_missing_flag_true_witness :
    (toggleFlag [⟨2, none, some "A"⟩] 2).1 =
      ⟨200, .data true ⟨2, some true, some "A"⟩⟩ :=
  (C10_toggle_missing_flag_true [⟨2, none, some "A"⟩] 2 ⟨2, none, some "A"⟩
    rfl rfl).1

end G26
